import Mathlib

/-!
Verification of the particle-field sketch (src/final.js) against its
natural-language specification.

The sketch is a p5.js program.  We shallowly embed the arithmetic of the
relevant p5 library helpers (`map`, `constrain`, `random`, vector `lerp`,
`setMag`, `fromAngle`) and the sketch-level functions built on them.
Scalar-only computations are embedded over `ℚ` (the source uses IEEE
doubles; all constants involved are exactly representable as rationals and
the claims are order/interval facts, so `ℚ` is faithful and keeps every
predicate decidable).  Planar vectors are embedded as `ℂ` (pairs of reals
with the Euclidean magnitude `Complex.abs`), which is needed for the
claims about magnitudes of velocity vectors built from angles.
-/

namespace P5

/-- p5.js `map(n, start1, stop1, start2, stop2)` without the optional
`withinBounds` flag: pure linear re-mapping, NO clamping.
`return start2 + (stop2 - start2) * ((n - start1) / (stop1 - start1))`. -/
def map (n start1 stop1 start2 stop2 : ℚ) : ℚ :=
  start2 + (stop2 - start2) * ((n - start1) / (stop1 - start1))

/-- p5.js `constrain(n, low, high) = Math.max(Math.min(n, high), low)`. -/
def constrain (n low high : ℚ) : ℚ :=
  max (min n high) low

/-- p5.js `random(lo, hi)` returns `lo + u * (hi - lo)` where `u` is the
underlying generator draw in `[0,1)`.  We expose the draw `u` as an
explicit argument. -/
def random (lo hi u : ℚ) : ℚ :=
  lo + u * (hi - lo)

/-- p5.js `p5.Vector.fromAngle(angle)` = unit vector `(cos θ, sin θ)`,
embedded as a complex number. -/
noncomputable def fromAngle (θ : ℝ) : ℂ :=
  ⟨Real.cos θ, Real.sin θ⟩

/-- Magnitude of an embedded p5 vector (`v.mag()`), the Euclidean norm. -/
noncomputable def mag (v : ℂ) : ℝ :=
  Complex.abs v

/-- p5.js `a.lerp(b, amt)`: componentwise `a + (b - a) * amt`. -/
noncomputable def lerp (a b : ℂ) (amt : ℝ) : ℂ :=
  a + amt • (b - a)

/-- p5.js `v.setMag(n) = v.normalize().mult(n)`; `normalize` leaves the
zero vector unchanged (its length test `len !== 0` fails), so
`setMag` of the zero vector is the zero vector. -/
noncomputable def setMag (v : ℂ) (n : ℝ) : ℂ :=
  if mag v = 0 then v else (n / mag v) • v

end P5

namespace Sketch

/-! ### Global constants of the sketch (src/final.js lines 17–28) -/

/-- Source line 21: `shapes = ["circle", "square", "triangle", "star"]`. -/
def shapes : List String :=
  ["circle", "square", "triangle", "star"]

/-! ### Pointer influence in Particle.update (lines 164–174)

`influence = map(d, 0, width * 0.7, 1.0, 0)` where `d` is the distance
from the particle to the mouse.  The same formula is computed in both the
pressed branch (line 170) and the unpressed branch (line 174). -/

/-- Influence computed in Particle.update: `map(d, 0, width * 0.7, 1.0, 0)`. -/
def influence (width d : ℚ) : ℚ :=
  P5.map d 0 (width * 0.7) 1.0 0

/-! ### Boundary wrap in Particle.update (lines 191–194)

```
if (this.pos.x < -50) this.pos.x = width + 50;
if (this.pos.x > width + 50) this.pos.x = -50;
if (this.pos.y < -50) this.pos.y = height + 50;
if (this.pos.y > height + 50) this.pos.y = -50;
```
The two `if`s on each axis run in sequence on the mutated value. -/

/-- The two sequential x-axis wrap tests of Particle.update. -/
def wrapCoord (bound x : ℚ) : ℚ :=
  let x1 := if x < -50 then bound + 50 else x
  if x1 > bound + 50 then -50 else x1

/-- Position integration followed by the wrap step of `Particle.update`
(lines 187–194): `pos += vel`, then each axis is wrapped.  The velocity
produced by the earlier part of `update` is passed in as `vel`; the bound
proved below holds for every velocity whatsoever, so abstracting it loses
nothing. -/
def updatePos (width height : ℚ) (pos vel : ℚ × ℚ) : ℚ × ℚ :=
  (wrapCoord width (pos.1 + vel.1), wrapCoord height (pos.2 + vel.2))

/-- Position after `n` calls to `update`, with an arbitrary velocity
`vels k` in force at step `k`. -/
def iterPos (width height : ℚ) (vels : ℕ → ℚ × ℚ) (pos : ℚ × ℚ) : ℕ → ℚ × ℚ
  | 0 => pos
  | n + 1 => updatePos width height (iterPos width height vels pos n) (vels n)

/-- The extended-canvas bound the spec claims for wrapped positions. -/
def inExtendedBounds (width height : ℚ) (pos : ℚ × ℚ) : Prop :=
  -50 ≤ pos.1 ∧ pos.1 ≤ width + 50 ∧ -50 ≤ pos.2 ∧ pos.2 ≤ height + 50

instance (width height : ℚ) (pos : ℚ × ℚ) :
    Decidable (inExtendedBounds width height pos) := by
  unfold inExtendedBounds; infer_instance

/-! ### Alpha in Particle.display (lines 210–212)

```
let d = dist(this.pos.x, this.pos.y, mouseX, mouseY);
let alpha = map(d, 0, width * 0.7, 1.0, 0.12);
alpha = constrain(alpha, 0.06, 1);
```
-/

/-- The alpha computed by `Particle.display` from the distance `d` to the
mouse. -/
def alpha (width d : ℚ) : ℚ :=
  P5.constrain (P5.map d 0 (width * 0.7) 1.0 0.12) 0.06 1

/-! ### Velocity blend in Particle.update, pointer not pressed (lines 172–184)

```
if (mode === "wave") {
  let osc = p5.Vector.fromAngle(this.phase + t * 2).mult(0.4);
  this.vel.lerp(nvec.mult(preset.speed * 0.6).add(osc), 0.05);
} else {
  let jitter = p5.Vector.random2D().mult(0.5);
  this.vel.lerp(nvec.mult(preset.speed * 1.4).add(jitter), 0.06);
}
```
`nvec = p5.Vector.fromAngle(angle)` where `angle` comes from the noise
field; we take `angle` as an argument.  `p5.Vector.random2D()` is
`fromAngle` of a uniform random angle, taken as the argument
`jitterAngle`. -/

/-- Wave-mode blend target: `nvec.mult(speed * 0.6).add(osc)` with
`osc = fromAngle(phase + t * 2).mult(0.4)`. -/
noncomputable def waveTarget (speed angle phase t : ℝ) : ℂ :=
  (speed * 0.6) • P5.fromAngle angle + (0.4 : ℝ) • P5.fromAngle (phase + t * 2)

/-- New velocity in wave mode: `vel.lerp(waveTarget, 0.05)`. -/
noncomputable def waveNewVel (vel : ℂ) (speed angle phase t : ℝ) : ℂ :=
  P5.lerp vel (waveTarget speed angle phase t) 0.05

/-- Particle-mode blend target: `nvec.mult(speed * 1.4).add(jitter)` with
`jitter = random2D().mult(0.5)`. -/
noncomputable def particleTarget (speed angle jitterAngle : ℝ) : ℂ :=
  (speed * 1.4) • P5.fromAngle angle + (0.5 : ℝ) • P5.fromAngle jitterAngle

/-- New velocity in particle mode: `vel.lerp(particleTarget, 0.06)`. -/
noncomputable def particleNewVel (vel : ℂ) (speed angle jitterAngle : ℝ) : ℂ :=
  P5.lerp vel (particleTarget speed angle jitterAngle) 0.06

/-! ### Click handler `mousePressed` (lines 315–340) -/

/-- Shape cycling on click (line 322):
`shapeIndex = (shapeIndex + 1) % shapes.length`. -/
def mousePressedShapeIndex (shapeIndex : ℕ) : ℕ :=
  (shapeIndex + 1) % shapes.length

/-- The burst vector of the click handler for one particle:
`p5.Vector.sub(p.pos, createVector(mouseX, mouseY)).setMag(random(0.6, 2.2))`
(lines 334–336); `r` is the value drawn by `random(0.6, 2.2)`. -/
noncomputable def clickImpulse (pos mouse : ℂ) (r : ℝ) : ℂ :=
  P5.setMag (pos - mouse) r

/-- One particle's velocity after `mousePressed` (lines 331–339):
`d = dist(mouseX, mouseY, p.pos.x, p.pos.y); if (d < 140) p.vel.add(pushVec)`. -/
noncomputable def clickNewVel (vel pos mouse : ℂ) (r : ℝ) : ℂ :=
  if P5.mag (pos - mouse) < 140 then vel + clickImpulse pos mouse r else vel

/-! ### Reseed command, `keyPressed` with key 'r'/'R' (lines 366–373)

```
p.pos = createVector(random(width), random(height));
p.vel = p5.Vector.random2D().mult(0.2);
```
`random(max)` is `u * max` for a generator draw `u ∈ [0,1)`. -/

/-- Position assigned to each particle by the reseed branch. -/
def reseedPos (width height ux uy : ℚ) : ℚ × ℚ :=
  (P5.random 0 width ux, P5.random 0 height uy)

/-- Velocity assigned to each particle by the reseed branch:
`p5.Vector.random2D().mult(0.2)`, with `θ` the random direction. -/
noncomputable def reseedVel (θ : ℝ) : ℂ :=
  (0.2 : ℝ) • P5.fromAngle θ

/-! ### Presets and `applyPreset` (lines 42–77, 382–389) -/

/-- A preset record as built in `setup` (lines 42–75). -/
structure Preset where
  hue : ℚ
  sat : ℚ
  bright : ℚ
  speed : ℚ
  noiseScale : ℚ
  particleSize : ℚ
deriving DecidableEq, Inhabited

/-- The four preset templates defined in `setup` (lines 42–75). -/
def initialPresets : List Preset :=
  [⟨42, 85, 70, 0.8, 0.0014, 3.0⟩,
   ⟨200, 70, 85, 1.2, 0.002, 2.2⟩,
   ⟨280, 65, 90, 0.6, 0.001, 3.8⟩,
   ⟨30, 90, 95, 1.5, 0.0026, 1.8⟩]

/-- The sketch state touched by `applyPreset`: the `presets` array, the
current index, the active `preset` object, and the particle sizes. -/
structure SimState where
  presetList : List Preset
  curPreset : ℕ
  preset : Preset
  sizes : List ℚ
deriving DecidableEq

/-- Size re-randomization in `applyPreset` (line 387):
`p.size = preset.particleSize * random(0.7, 1.5)`. -/
def applyPresetSize (particleSize u : ℚ) : ℚ :=
  particleSize * P5.random 0.7 1.5 u

/-- Function `applyPreset(i)` (lines 382–389): `curPreset = i`;
`preset = Object.assign({}, presets[i])` installs a COPY of template `i`
(the `presets` array itself is never written); each particle's size is
re-randomized.  `draws` holds one `random(0.7, 1.5)` generator draw per
particle. -/
def applyPreset (i : ℕ) (draws : List ℚ) (s : SimState) : SimState :=
  let tpl := s.presetList.getD i default
  { presetList := s.presetList
    curPreset := i
    preset := tpl
    sizes := draws.map fun u => applyPresetSize tpl.particleSize u }

/-- Size jitter at Particle construction (line 150):
`this.size = preset.particleSize * random(0.7, 1.6)`. -/
def constructorSize (particleSize u : ℚ) : ℚ :=
  particleSize * P5.random 0.7 1.6 u

/-! ### Preset selection guard in `keyPressed` (lines 353–354)

```
} else if (key >= "1" && key <= "4") {
  applyPreset(int(key) - 1);
```
Keys are delivered one keystroke at a time; for printable keystrokes p5's
`key` is the single typed character, so we model it as a `Char` with the
same (code-point) ordering that the JS string comparison performs. -/

/-- The preset index requested by a key press: `some (int(key) - 1)` when
the guard `key >= "1" && key <= "4"` passes, `none` otherwise (the branch
is not taken and no preset selection happens). -/
def presetKeyIndex (key : Char) : Option ℕ :=
  if '1' ≤ key ∧ key ≤ '4' then some (key.toNat - '0'.toNat - 1) else none

/-- Effect of one `keyPressed` on `curPreset`: only the digit branch
writes it (via `applyPreset`), every other key leaves it alone. -/
def keyPressedCurPreset (key : Char) (cur : ℕ) : ℕ :=
  match presetKeyIndex key with
  | some i => i
  | none => cur

end Sketch

/-! ## Helper lemmas -/

theorem P5.mag_eq_norm (v : ℂ) : P5.mag v = ‖v‖ :=
  (Complex.norm_eq_abs v).symm

theorem P5.mag_fromAngle (θ : ℝ) : P5.mag (P5.fromAngle θ) = 1 := by
  have h : Real.cos θ * Real.cos θ + Real.sin θ * Real.sin θ = 1 := by
    rw [← Real.sin_sq_add_cos_sq θ]; ring
  simp [P5.mag, P5.fromAngle, Complex.abs_apply, Complex.normSq_mk, h]

theorem P5.mag_smul (a : ℝ) (v : ℂ) : P5.mag (a • v) = |a| * P5.mag v := by
  rw [P5.mag_eq_norm, P5.mag_eq_norm, norm_smul, Real.norm_eq_abs]

theorem P5.constrain_mono (a b lo hi : ℚ) (hab : a ≤ b) :
    P5.constrain a lo hi ≤ P5.constrain b lo hi :=
  max_le_max (min_le_min hab le_rfl) le_rfl

theorem P5.constrain_mem (n lo hi : ℚ) (hlohi : lo ≤ hi) :
    lo ≤ P5.constrain n lo hi ∧ P5.constrain n lo hi ≤ hi :=
  ⟨le_max_right _ _, max_le (min_le_right _ _) hlohi⟩

theorem Sketch.wrapCoord_mem (b x : ℚ) (hb : 0 ≤ b) :
    -50 ≤ Sketch.wrapCoord b x ∧ Sketch.wrapCoord b x ≤ b + 50 := by
  simp only [Sketch.wrapCoord]
  split_ifs <;> constructor <;> linarith

/-! ## Claim C1 -/

/-- C1, counterexample: on a canvas of width 100, a particle at distance
140 from the pointer gets a NEGATIVE influence value, because the `map`
call in Particle.update is not clamped.  The claim that the influence
always lies in [0,1] is therefore false. -/
theorem C1_cex_influence_negative : Sketch.influence 100 140 < 0 := by
  norm_num [Sketch.influence, P5.map]

/-- C1, amended: the influence computed in Particle.update equals
`1 - d / (0.7 * width)`: it is 1 at d = 0 and decreases linearly to 0 at
d = 0.7 * width, but it is NOT clamped — for d > 0.7 * width it is
strictly negative, so the drag-branch `setMag(influence * 0.8)` can be
called with a negative magnitude. -/
theorem C1_influence_linear_unclamped (w d : ℚ) (hw : 0 < w) :
    Sketch.influence w 0 = 1 ∧
    Sketch.influence w (w * 0.7) = 0 ∧
    Sketch.influence w d = 1 - d / (w * 0.7) ∧
    (w * 0.7 < d → Sketch.influence w d < 0) := by
  have h7 : w * 0.7 ≠ 0 := by positivity
  have hform : ∀ e : ℚ, Sketch.influence w e = 1 - e / (w * 0.7) := by
    intro e
    simp only [Sketch.influence, P5.map]
    ring
  refine ⟨?_, ?_, hform d, ?_⟩
  · rw [hform]; simp
  · rw [hform, div_self h7]; norm_num
  · intro hd
    have h1 : (1 : ℚ) < d / (w * 0.7) := (one_lt_div (by positivity)).mpr hd
    rw [hform]; linarith

/-- C1 witness: the amended theorem instantiated at width 100, d = 140. -/
theorem C1_influence_linear_unclamped_witness :
    Sketch.influence 100 0 = 1 ∧
    Sketch.influence 100 (100 * 0.7) = 0 ∧
    Sketch.influence 100 140 = 1 - 140 / (100 * 0.7) ∧
    ((100 : ℚ) * 0.7 < 140 → Sketch.influence 100 140 < 0) :=
  C1_influence_linear_unclamped 100 140 (by norm_num)

/-! ## Claim C2 -/

/-- C2: after the integrate-then-wrap step of Particle.update the position
lies in [-50, width + 50] × [-50, height + 50], for EVERY incoming
position and velocity, and the bound is closed under arbitrarily many
repeated updates with arbitrary velocities. -/
theorem C2_wrap_invariant (w h : ℚ) (pos vel : ℚ × ℚ)
    (vels : ℕ → ℚ × ℚ) (n : ℕ) (hw : 0 ≤ w) (hh : 0 ≤ h) (hn : 1 ≤ n) :
    Sketch.inExtendedBounds w h (Sketch.updatePos w h pos vel) ∧
    Sketch.inExtendedBounds w h (Sketch.iterPos w h vels pos n) := by
  have key : ∀ p v : ℚ × ℚ,
      Sketch.inExtendedBounds w h (Sketch.updatePos w h p v) := by
    intro p v
    obtain ⟨h1, h2⟩ := Sketch.wrapCoord_mem w (p.1 + v.1) hw
    obtain ⟨h3, h4⟩ := Sketch.wrapCoord_mem h (p.2 + v.2) hh
    exact ⟨h1, h2, h3, h4⟩
  refine ⟨key pos vel, ?_⟩
  cases n with
  | zero => omega
  | succ m => exact key _ _

/-- C2 witness: one concrete update and one concrete iterated run. -/
theorem C2_wrap_invariant_witness :
    Sketch.inExtendedBounds 100 200 (Sketch.updatePos 100 200 (0, 0) (3, 4)) ∧
    Sketch.inExtendedBounds 100 200
      (Sketch.iterPos 100 200 (fun _ => (1, 1)) (0, 0) 1) :=
  C2_wrap_invariant 100 200 (0, 0) (3, 4) (fun _ => (1, 1)) 1
    (by norm_num) (by norm_num) le_rfl

/-! ## Claim C7 -/

/-- C7: the alpha of Particle.display is 1 at distance 0, is 0.12 at
distance 0.7 * width, always lies in [0.06, 1], and is monotonically
non-increasing in the distance. -/
theorem C7_alpha_properties (w d d1 d2 : ℚ) (hw : 0 < w) (hd : d1 ≤ d2) :
    Sketch.alpha w 0 = 1 ∧
    Sketch.alpha w (w * 0.7) = 0.12 ∧
    0.06 ≤ Sketch.alpha w d ∧ Sketch.alpha w d ≤ 1 ∧
    Sketch.alpha w d2 ≤ Sketch.alpha w d1 := by
  have h7 : (0 : ℚ) < w * 0.7 := by positivity
  have hform : ∀ e : ℚ,
      P5.map e 0 (w * 0.7) 1.0 0.12 = 1 + (0.12 - 1) * (e / (w * 0.7)) := by
    intro e
    simp only [P5.map]
    ring
  obtain ⟨hlo, hhi⟩ := P5.constrain_mem (P5.map d 0 (w * 0.7) 1.0 0.12) 0.06 1
    (by norm_num)
  refine ⟨?_, ?_, hlo, hhi, ?_⟩
  · simp only [Sketch.alpha, hform, P5.constrain]
    norm_num
  · simp only [Sketch.alpha, hform, P5.constrain, div_self (ne_of_gt h7)]
    norm_num
  · apply P5.constrain_mono
    rw [hform, hform]
    have hdiv : d1 / (w * 0.7) ≤ d2 / (w * 0.7) := by gcongr
    linarith

/-- C7 witness at width 100, distances 0 and 70. -/
theorem C7_alpha_properties_witness :
    Sketch.alpha 100 0 = 1 ∧
    Sketch.alpha 100 (100 * 0.7) = 0.12 ∧
    0.06 ≤ Sketch.alpha 100 35 ∧ Sketch.alpha 100 35 ≤ 1 ∧
    Sketch.alpha 100 70 ≤ Sketch.alpha 100 0 :=
  C7_alpha_properties 100 35 0 70 (by norm_num) (by norm_num)

/-! ## Claim C3 -/

/-- C3: with the pointer not pressed, the new velocity is
lerp(vel, target, 0.05) in wave mode and lerp(vel, target, 0.06) in
particle mode, with the targets read off the source; the wave target's
magnitude is at most speed * 0.6 + 0.4, and the single-step wave velocity
change has magnitude at most 0.05 * (|target| + |vel|). -/
theorem C3_velocity_blend (vel : ℂ) (speed angle phase t jitterAngle : ℝ)
    (hs : 0 ≤ speed) :
    Sketch.waveNewVel vel speed angle phase t
      = P5.lerp vel (Sketch.waveTarget speed angle phase t) 0.05 ∧
    Sketch.particleNewVel vel speed angle jitterAngle
      = P5.lerp vel (Sketch.particleTarget speed angle jitterAngle) 0.06 ∧
    P5.mag (Sketch.waveTarget speed angle phase t) ≤ speed * 0.6 + 0.4 ∧
    P5.mag (Sketch.waveNewVel vel speed angle phase t - vel)
      ≤ 0.05 * (P5.mag (Sketch.waveTarget speed angle phase t) + P5.mag vel) := by
  have htgt : P5.mag (Sketch.waveTarget speed angle phase t)
      ≤ speed * 0.6 + 0.4 := by
    unfold Sketch.waveTarget
    rw [P5.mag_eq_norm]
    calc ‖(speed * 0.6) • P5.fromAngle angle
            + (0.4 : ℝ) • P5.fromAngle (phase + t * 2)‖
        ≤ ‖(speed * 0.6) • P5.fromAngle angle‖
            + ‖(0.4 : ℝ) • P5.fromAngle (phase + t * 2)‖ := norm_add_le _ _
      _ = |speed * 0.6| * P5.mag (P5.fromAngle angle)
            + |(0.4 : ℝ)| * P5.mag (P5.fromAngle (phase + t * 2)) := by
          rw [norm_smul, norm_smul, Real.norm_eq_abs, Real.norm_eq_abs,
            P5.mag_eq_norm, P5.mag_eq_norm]
      _ = speed * 0.6 + 0.4 := by
          rw [P5.mag_fromAngle, P5.mag_fromAngle,
            abs_of_nonneg (by positivity : (0 : ℝ) ≤ speed * 0.6),
            abs_of_nonneg (by norm_num : (0 : ℝ) ≤ 0.4)]
          ring
  have hdelta : Sketch.waveNewVel vel speed angle phase t - vel
      = (0.05 : ℝ) • (Sketch.waveTarget speed angle phase t - vel) := by
    unfold Sketch.waveNewVel P5.lerp
    exact add_sub_cancel_left _ _
  refine ⟨rfl, rfl, htgt, ?_⟩
  rw [hdelta, P5.mag_smul, abs_of_nonneg (by norm_num : (0 : ℝ) ≤ 0.05)]
  have hsub : P5.mag (Sketch.waveTarget speed angle phase t - vel)
      ≤ P5.mag (Sketch.waveTarget speed angle phase t) + P5.mag vel := by
    rw [P5.mag_eq_norm, P5.mag_eq_norm, P5.mag_eq_norm]
    exact norm_sub_le _ _
  linarith

/-- C3 witness at vel = 0, speed = 1, all angles and time 0. -/
theorem C3_velocity_blend_witness :
    Sketch.waveNewVel 0 1 0 0 0 = P5.lerp 0 (Sketch.waveTarget 1 0 0 0) 0.05 ∧
    Sketch.particleNewVel 0 1 0 0
      = P5.lerp 0 (Sketch.particleTarget 1 0 0) 0.06 ∧
    P5.mag (Sketch.waveTarget 1 0 0 0) ≤ 1 * 0.6 + 0.4 ∧
    P5.mag (Sketch.waveNewVel 0 1 0 0 0 - 0)
      ≤ 0.05 * (P5.mag (Sketch.waveTarget 1 0 0 0) + P5.mag 0) :=
  C3_velocity_blend 0 1 0 0 0 0 zero_le_one

/-! ## Claim C9 -/

/-- C9: a particle exactly at the pointer is within the 140-unit radius,
but `setMag` applied to the zero difference vector yields the zero vector,
so the click leaves that particle's velocity unchanged. -/
theorem C9_zero_distance_impulse (vel mouse : ℂ) (r : ℝ) :
    P5.mag (mouse - mouse) < 140 ∧
    Sketch.clickImpulse mouse mouse r = 0 ∧
    Sketch.clickNewVel vel mouse mouse r = vel := by
  have h0 : P5.mag (mouse - mouse) = 0 := by
    rw [sub_self, P5.mag_eq_norm, norm_zero]
  have himp : Sketch.clickImpulse mouse mouse r = 0 := by
    unfold Sketch.clickImpulse P5.setMag
    rw [sub_self]
    simp [P5.mag]
  refine ⟨by rw [h0]; norm_num, himp, ?_⟩
  unfold Sketch.clickNewVel
  rw [if_pos (by rw [h0]; norm_num : P5.mag (mouse - mouse) < 140), himp,
    add_zero]

/-! ## Claim C4 -/

/-- C4, counterexample: a particle exactly at the pointer is strictly
inside the 140-unit radius, yet the velocity change the click adds to it is
the zero vector, whose magnitude 0 is not in [0.6, 2.2]; the claim that
every particle within the radius receives an impulse of magnitude in
[0.6, 2.2] is therefore false. -/
theorem C4_cex_zero_magnitude_impulse :
    P5.mag ((0 : ℂ) - 0) < 140 ∧
    Sketch.clickNewVel 0 0 0 1 - 0 = 0 ∧
    ¬ (0.6 ≤ P5.mag (Sketch.clickNewVel 0 0 0 1 - 0)) := by
  have h0 : P5.mag ((0 : ℂ) - 0) = 0 := by
    rw [sub_self, P5.mag_eq_norm, norm_zero]
  have hcnv : Sketch.clickNewVel 0 0 0 1 = 0 := by
    unfold Sketch.clickNewVel Sketch.clickImpulse P5.setMag
    rw [sub_self]
    simp [P5.mag]
  refine ⟨by rw [h0]; norm_num, by rw [hcnv, sub_zero], ?_⟩
  rw [hcnv, sub_zero, P5.mag_eq_norm, norm_zero]
  norm_num

/-- C4, amended: the click handler advances the shape index by one modulo
the number of shapes; a particle strictly inside the 140-unit radius at
NONZERO distance gains an impulse that is a positive multiple of
(pos - mouse) — directed away from the pointer — of magnitude exactly the
random draw r in [0.6, 2.2); a particle exactly at the pointer gains the
zero impulse (magnitude 0, see the counterexample); particles at distance
at least 140 are unchanged. -/
theorem C4_click_effects (shapeIndex : ℕ) (vel pos mouse : ℂ) (r : ℝ)
    (hr0 : 0.6 ≤ r) (hr1 : r < 2.2) :
    Sketch.mousePressedShapeIndex shapeIndex
      = (shapeIndex + 1) % Sketch.shapes.length ∧
    (P5.mag (pos - mouse) < 140 → pos ≠ mouse →
      Sketch.clickNewVel vel pos mouse r - vel
        = (r / P5.mag (pos - mouse)) • (pos - mouse) ∧
      P5.mag (Sketch.clickNewVel vel pos mouse r - vel) = r ∧
      0 < r / P5.mag (pos - mouse)) ∧
    (140 ≤ P5.mag (pos - mouse) → Sketch.clickNewVel vel pos mouse r = vel) := by
  refine ⟨rfl, ?_, ?_⟩
  · intro hd hne
    have hvne : pos - mouse ≠ 0 := sub_ne_zero.mpr hne
    have hmpos : 0 < P5.mag (pos - mouse) := by
      rw [P5.mag_eq_norm]
      exact norm_pos_iff.mpr hvne
    have hmne : P5.mag (pos - mouse) ≠ 0 := ne_of_gt hmpos
    have hrpos : (0 : ℝ) < r := lt_of_lt_of_le (by norm_num) hr0
    have hdeq : Sketch.clickNewVel vel pos mouse r - vel
        = (r / P5.mag (pos - mouse)) • (pos - mouse) := by
      unfold Sketch.clickNewVel Sketch.clickImpulse P5.setMag
      rw [if_pos hd, if_neg hmne]
      exact add_sub_cancel_left _ _
    refine ⟨hdeq, ?_, div_pos hrpos hmpos⟩
    rw [hdeq, P5.mag_smul, abs_of_pos (div_pos hrpos hmpos),
      div_mul_cancel₀ r hmne]
  · intro h140
    unfold Sketch.clickNewVel
    rw [if_neg (not_lt.mpr h140)]

/-- C4 witness at shapeIndex 0, vel = 0, pos = 1, mouse = 0, r = 1. -/
theorem C4_click_effects_witness :
    Sketch.mousePressedShapeIndex 0 = (0 + 1) % Sketch.shapes.length ∧
    (P5.mag ((1 : ℂ) - 0) < 140 → (1 : ℂ) ≠ 0 →
      Sketch.clickNewVel 0 1 0 1 - 0
        = ((1 : ℝ) / P5.mag ((1 : ℂ) - 0)) • ((1 : ℂ) - 0) ∧
      P5.mag (Sketch.clickNewVel 0 1 0 1 - 0) = 1 ∧
      0 < (1 : ℝ) / P5.mag ((1 : ℂ) - 0)) ∧
    (140 ≤ P5.mag ((1 : ℂ) - 0) → Sketch.clickNewVel 0 1 0 1 = 0) :=
  C4_click_effects 0 0 1 0 1 (by norm_num) (by norm_num)

/-! ## Claim C5 -/

/-- C5: after the reseed command ('r'/'R') every particle's position lies
in [0, width] × [0, height] and its velocity has magnitude exactly 0.2. -/
theorem C5_reseed_state (w h ux uy : ℚ) (θ : ℝ)
    (hw : 0 ≤ w) (hh : 0 ≤ h)
    (hux0 : 0 ≤ ux) (hux1 : ux < 1) (huy0 : 0 ≤ uy) (huy1 : uy < 1) :
    0 ≤ (Sketch.reseedPos w h ux uy).1 ∧ (Sketch.reseedPos w h ux uy).1 ≤ w ∧
    0 ≤ (Sketch.reseedPos w h ux uy).2 ∧ (Sketch.reseedPos w h ux uy).2 ≤ h ∧
    P5.mag (Sketch.reseedVel θ) = 0.2 := by
  have hx : (Sketch.reseedPos w h ux uy).1 = ux * w := by
    simp [Sketch.reseedPos, P5.random]
  have hy : (Sketch.reseedPos w h ux uy).2 = uy * h := by
    simp [Sketch.reseedPos, P5.random]
  refine ⟨?_, ?_, ?_, ?_, ?_⟩
  · rw [hx]; exact mul_nonneg hux0 hw
  · rw [hx]; nlinarith [mul_nonneg (by linarith : (0 : ℚ) ≤ 1 - ux) hw]
  · rw [hy]; exact mul_nonneg huy0 hh
  · rw [hy]; nlinarith [mul_nonneg (by linarith : (0 : ℚ) ≤ 1 - uy) hh]
  · unfold Sketch.reseedVel
    rw [P5.mag_smul, P5.mag_fromAngle,
      abs_of_nonneg (by norm_num : (0 : ℝ) ≤ 0.2)]
    ring

/-- C5 witness on a 1 × 1 canvas with zero draws and direction 0. -/
theorem C5_reseed_state_witness :
    0 ≤ (Sketch.reseedPos 1 1 0 0).1 ∧ (Sketch.reseedPos 1 1 0 0).1 ≤ 1 ∧
    0 ≤ (Sketch.reseedPos 1 1 0 0).2 ∧ (Sketch.reseedPos 1 1 0 0).2 ≤ 1 ∧
    P5.mag (Sketch.reseedVel 0) = 0.2 :=
  C5_reseed_state 1 1 0 0 0 (by norm_num) (by norm_num) le_rfl (by norm_num)
    le_rfl (by norm_num)

/-! ## Claim C6 -/

/-- C6: applyPreset installs a copy of template i and never writes the
presets array, so applying it twice with the same index yields the
identical active-preset record (hue, sat, bright, speed, noiseScale,
particleSize) both times, and every re-randomized particle size lies in
[0.7, 1.5] × the template's particleSize. -/
theorem C6_applyPreset_pure (i : ℕ) (d1 d2 : List ℚ) (s : Sketch.SimState)
    (hi : i < s.presetList.length)
    (hps : 0 ≤ (s.presetList.getD i default).particleSize)
    (hd1 : ∀ u ∈ d1, 0 ≤ u ∧ u < 1) :
    (Sketch.applyPreset i d1 s).presetList = s.presetList ∧
    (Sketch.applyPreset i d2 (Sketch.applyPreset i d1 s)).preset
      = (Sketch.applyPreset i d1 s).preset ∧
    ∀ sz ∈ (Sketch.applyPreset i d1 s).sizes,
      0.7 * (s.presetList.getD i default).particleSize ≤ sz ∧
      sz ≤ 1.5 * (s.presetList.getD i default).particleSize := by
  refine ⟨rfl, rfl, ?_⟩
  intro sz hsz
  simp only [Sketch.applyPreset, List.mem_map] at hsz
  obtain ⟨u, hu, rfl⟩ := hsz
  obtain ⟨hu0, hu1⟩ := hd1 u hu
  unfold Sketch.applyPresetSize P5.random
  constructor
  · nlinarith [mul_nonneg hps hu0]
  · nlinarith [mul_nonneg hps (by linarith : (0 : ℚ) ≤ 1 - u)]

/-- C6 witness: apply preset 0 on the initial templates with one particle
whose draw is 1/2, then re-apply it with no particles. -/
theorem C6_applyPreset_pure_witness :
    (Sketch.applyPreset 0 [1/2]
        ⟨Sketch.initialPresets, 0, default, []⟩).presetList
      = (⟨Sketch.initialPresets, 0, default, []⟩ :
          Sketch.SimState).presetList ∧
    (Sketch.applyPreset 0 []
        (Sketch.applyPreset 0 [1/2]
          ⟨Sketch.initialPresets, 0, default, []⟩)).preset
      = (Sketch.applyPreset 0 [1/2]
          ⟨Sketch.initialPresets, 0, default, []⟩).preset ∧
    ∀ sz ∈ (Sketch.applyPreset 0 [1/2]
        ⟨Sketch.initialPresets, 0, default, []⟩).sizes,
      0.7 * (((⟨Sketch.initialPresets, 0, default, []⟩ :
          Sketch.SimState).presetList.getD 0 default).particleSize) ≤ sz ∧
      sz ≤ 1.5 * (((⟨Sketch.initialPresets, 0, default, []⟩ :
          Sketch.SimState).presetList.getD 0 default).particleSize) :=
  C6_applyPreset_pure 0 [1/2] [] ⟨Sketch.initialPresets, 0, default, []⟩
    (by simp [Sketch.initialPresets])
    (by norm_num [Sketch.initialPresets])
    (by intro u hu; simp at hu; subst hu; norm_num)

/-! ## Claim C8 -/

/-- C8: the digit guard in keyPressed admits only the indices 0..3, so no
key press can request an out-of-range preset index — such a request is
rejected silently (curPreset untouched) — and curPreset stays a valid
index into the presets array after any key. -/
theorem C8_preset_guard (i : ℕ) (key : Char) (cur : ℕ)
    (hi : 4 ≤ i) (hcur : cur < Sketch.initialPresets.length) :
    Sketch.presetKeyIndex key ≠ some i ∧
    (Sketch.presetKeyIndex key = none →
      Sketch.keyPressedCurPreset key cur = cur) ∧
    Sketch.keyPressedCurPreset key cur < Sketch.initialPresets.length := by
  have hlen : Sketch.initialPresets.length = 4 := rfl
  have hidx : ∀ j : ℕ, Sketch.presetKeyIndex key = some j → j < 4 := by
    intro j hj
    unfold Sketch.presetKeyIndex at hj
    split_ifs at hj with hg
    obtain ⟨hg1, hg4⟩ := hg
    have h1 : ('1' : Char).toNat ≤ key.toNat := hg1
    have h4 : key.toNat ≤ ('4' : Char).toNat := hg4
    have e1 : ('1' : Char).toNat = 49 := rfl
    have e4 : ('4' : Char).toNat = 52 := rfl
    have e0 : ('0' : Char).toNat = 48 := rfl
    have hj2 : key.toNat - '0'.toNat - 1 = j := Option.some.inj hj
    omega
  refine ⟨?_, ?_, ?_⟩
  · intro hsome
    have := hidx i hsome
    omega
  · intro hnone
    unfold Sketch.keyPressedCurPreset
    rw [hnone]
  · cases hcase : Sketch.presetKeyIndex key with
    | none =>
      unfold Sketch.keyPressedCurPreset
      rw [hcase]
      exact hcur
    | some j =>
      unfold Sketch.keyPressedCurPreset
      rw [hcase, hlen]
      exact hidx j hcase

/-- C8 witness at requested index 7, key 'x', current preset 0. -/
theorem C8_preset_guard_witness :
    Sketch.presetKeyIndex 'x' ≠ some 7 ∧
    (Sketch.presetKeyIndex 'x' = none →
      Sketch.keyPressedCurPreset 'x' 0 = 0) ∧
    Sketch.keyPressedCurPreset 'x' 0 < Sketch.initialPresets.length :=
  C8_preset_guard 7 'x' 0 (by norm_num) (by simp [Sketch.initialPresets])

/-! ## Claim C10 -/

/-- C10: at construction a particle's size factor is drawn from
[0.7, 1.6), strictly wider than the [0.7, 1.5) range applyPreset draws
from, so a freshly constructed particle (for instance with draw 0.95) is
strictly larger than every particle sized by applyPreset. -/
theorem C10_constructor_size_range (ps u v : ℚ)
    (hu0 : 0 ≤ u) (hu1 : u < 1) (hv0 : 0 ≤ v) (hv1 : v < 1) (hps : 0 < ps) :
    0.7 * ps ≤ Sketch.constructorSize ps u ∧
    Sketch.constructorSize ps u < 1.6 * ps ∧
    0.7 * ps ≤ Sketch.applyPresetSize ps v ∧
    Sketch.applyPresetSize ps v < 1.5 * ps ∧
    Sketch.applyPresetSize ps v < Sketch.constructorSize ps 0.95 := by
  unfold Sketch.constructorSize Sketch.applyPresetSize P5.random
  refine ⟨?_, ?_, ?_, ?_, ?_⟩
  · nlinarith [mul_nonneg (le_of_lt hps) hu0]
  · nlinarith [mul_pos hps (by linarith : (0 : ℚ) < 1 - u)]
  · nlinarith [mul_nonneg (le_of_lt hps) hv0]
  · nlinarith [mul_pos hps (by linarith : (0 : ℚ) < 1 - v)]
  · nlinarith [mul_pos hps (by linarith : (0 : ℚ) < 1 - v)]

/-- C10 witness at particleSize 1 with both draws 0. -/
theorem C10_constructor_size_range_witness :
    0.7 * 1 ≤ Sketch.constructorSize 1 0 ∧
    Sketch.constructorSize 1 0 < 1.6 * 1 ∧
    0.7 * 1 ≤ Sketch.applyPresetSize 1 0 ∧
    Sketch.applyPresetSize 1 0 < 1.5 * 1 ∧
    Sketch.applyPresetSize 1 0 < Sketch.constructorSize 1 0.95 :=
  C10_constructor_size_range 1 0 0 (by norm_num) (by norm_num) (by norm_num)
    (by norm_num) (by norm_num)
